import Mathlib

/-!
Verification of the istio-operator excerpt: the CRD schema sanitizer
(package hacks) and the control-plane instance reconciler
(pkg/controller/servicemesh/controlplane/reconciler.go).

Shallow embedding conventions:
* Go maps are modelled as association lists with unique keys.
* In-place mutation is modelled by returning the updated value.
* Boundary calls (cluster client, chart renderer, readiness probes) are
  modelled as oracle fields of an explicit world structure.
* The unbounded recursion of recursivelyApplyTemplates is modelled with
  explicit fuel; a result of none means the computation did not finish
  within the given fuel bound.
-/

/-! ### CRD OpenAPI schema model (k8s apiextensions v1beta1 JSONSchemaProps)

The walker in the source recurses through these sub-schema positions:
OneOf, AnyOf, AllOf, Properties, PatternProperties, Definitions, Not,
Items.Schema, Items.JSONSchemas, AdditionalProperties.Schema,
AdditionalItems.Schema and Dependencies values. The boundary struct has
further scalar fields which the walker never touches; description, format
and required stand in for them. Pointer fields are Option, slices are
List, string-keyed maps are association lists. -/
structure JSONSchemaProps where
  type : String
  description : String
  format : String
  required : List String
  oneOf : List JSONSchemaProps
  anyOf : List JSONSchemaProps
  allOf : List JSONSchemaProps
  properties : List (String × JSONSchemaProps)
  patternProperties : List (String × JSONSchemaProps)
  definitions : List (String × JSONSchemaProps)
  not : Option JSONSchemaProps
  /-- JSONSchemaPropsOrArray: a Schema pointer together with a JSONSchemas slice. -/
  items : Option (Option JSONSchemaProps × List JSONSchemaProps)
  /-- JSONSchemaPropsOrBool: the Allows flag together with a Schema pointer. -/
  additionalProperties : Option (Bool × Option JSONSchemaProps)
  additionalItems : Option (Bool × Option JSONSchemaProps)
  /-- JSONSchemaPropsOrStringArray: a Schema pointer together with a Property slice. -/
  dependencies : List (String × (Option JSONSchemaProps × List String))

mutual
/-- Embeds removeTypeObjectField (part_000 lines 46-77): clears the type
field when it is the string object, then recurses into every sub-schema
position. -/
def removeTypeObjectField : JSONSchemaProps → JSONSchemaProps
  | ⟨ty, desc, fmt, req, oneOf, anyOf, allOf, props, patProps, defs, nt,
     items, addProps, addItems, deps⟩ =>
    ⟨if ty = "object" then "" else ty, desc, fmt, req,
     removeTypeObjectFieldFromArray oneOf,
     removeTypeObjectFieldFromArray anyOf,
     removeTypeObjectFieldFromArray allOf,
     removeTypeObjectFieldFromMap props,
     removeTypeObjectFieldFromMap patProps,
     removeTypeObjectFieldFromMap defs,
     removeTypeObjectFieldFromPtr nt,
     removeTypeObjectFieldFromItems items,
     removeTypeObjectFieldFromSchemaOrBool addProps,
     removeTypeObjectFieldFromSchemaOrBool addItems,
     removeTypeObjectFieldFromDeps deps⟩
termination_by s => sizeOf s
decreasing_by all_goals (simp_wf <;> omega)

/-- Embeds removeTypeObjectFieldFromArray (lines 79-84). -/
def removeTypeObjectFieldFromArray : List JSONSchemaProps → List JSONSchemaProps
  | [] => []
  | c :: cs => removeTypeObjectField c :: removeTypeObjectFieldFromArray cs
termination_by l => sizeOf l
decreasing_by all_goals (simp_wf <;> omega)

/-- Embeds removeTypeObjectFieldFromMap (lines 86-91). -/
def removeTypeObjectFieldFromMap :
    List (String × JSONSchemaProps) → List (String × JSONSchemaProps)
  | [] => []
  | (k, v) :: cs => (k, removeTypeObjectField v) :: removeTypeObjectFieldFromMap cs
termination_by l => sizeOf l
decreasing_by all_goals (simp_wf <;> omega)

/-- A call through a possibly nil pointer; the nil guard is the check at
the top of removeTypeObjectField (lines 47-49). -/
def removeTypeObjectFieldFromPtr : Option JSONSchemaProps → Option JSONSchemaProps
  | none => none
  | some s => some (removeTypeObjectField s)
termination_by o => sizeOf o
decreasing_by all_goals (simp_wf <;> omega)

/-- The Items handling inlined at lines 63-66. -/
def removeTypeObjectFieldFromItems :
    Option (Option JSONSchemaProps × List JSONSchemaProps) →
      Option (Option JSONSchemaProps × List JSONSchemaProps)
  | none => none
  | some (s, arr) =>
    some (removeTypeObjectFieldFromPtr s, removeTypeObjectFieldFromArray arr)
termination_by o => sizeOf o
decreasing_by all_goals (simp_wf <;> omega)

/-- The AdditionalProperties and AdditionalItems handling inlined at
lines 67-72; only the Schema pointer is visited. -/
def removeTypeObjectFieldFromSchemaOrBool :
    Option (Bool × Option JSONSchemaProps) → Option (Bool × Option JSONSchemaProps)
  | none => none
  | some (b, s) => some (b, removeTypeObjectFieldFromPtr s)
termination_by o => sizeOf o
decreasing_by all_goals (simp_wf <;> omega)

/-- The Dependencies loop at lines 73-76; only the Schema pointer of each
entry is visited. -/
def removeTypeObjectFieldFromDeps :
    List (String × (Option JSONSchemaProps × List String)) →
      List (String × (Option JSONSchemaProps × List String))
  | [] => []
  | (k, (s, props)) :: cs =>
    (k, (removeTypeObjectFieldFromPtr s, props)) :: removeTypeObjectFieldFromDeps cs
termination_by l => sizeOf l
decreasing_by all_goals (simp_wf <;> omega)
end

mutual
/-- True when some node of the schema tree, in any position the source
walker visits, has type equal to object. -/
def hasTypeObject : JSONSchemaProps → Bool
  | ⟨ty, _, _, _, oneOf, anyOf, allOf, props, patProps, defs, nt,
     items, addProps, addItems, deps⟩ =>
    (ty == "object") || hasTypeObjectArr oneOf || hasTypeObjectArr anyOf ||
      hasTypeObjectArr allOf || hasTypeObjectMap props ||
      hasTypeObjectMap patProps || hasTypeObjectMap defs ||
      hasTypeObjectPtr nt || hasTypeObjectItems items ||
      hasTypeObjectSchemaOrBool addProps || hasTypeObjectSchemaOrBool addItems ||
      hasTypeObjectDeps deps
termination_by s => sizeOf s
decreasing_by all_goals (simp_wf <;> omega)

def hasTypeObjectArr : List JSONSchemaProps → Bool
  | [] => false
  | c :: cs => hasTypeObject c || hasTypeObjectArr cs
termination_by l => sizeOf l
decreasing_by all_goals (simp_wf <;> omega)

def hasTypeObjectMap : List (String × JSONSchemaProps) → Bool
  | [] => false
  | (_, v) :: cs => hasTypeObject v || hasTypeObjectMap cs
termination_by l => sizeOf l
decreasing_by all_goals (simp_wf <;> omega)

def hasTypeObjectPtr : Option JSONSchemaProps → Bool
  | none => false
  | some s => hasTypeObject s
termination_by o => sizeOf o
decreasing_by all_goals (simp_wf <;> omega)

def hasTypeObjectItems : Option (Option JSONSchemaProps × List JSONSchemaProps) → Bool
  | none => false
  | some (s, arr) => hasTypeObjectPtr s || hasTypeObjectArr arr
termination_by o => sizeOf o
decreasing_by all_goals (simp_wf <;> omega)

def hasTypeObjectSchemaOrBool : Option (Bool × Option JSONSchemaProps) → Bool
  | none => false
  | some (_, s) => hasTypeObjectPtr s
termination_by o => sizeOf o
decreasing_by all_goals (simp_wf <;> omega)

def hasTypeObjectDeps : List (String × (Option JSONSchemaProps × List String)) → Bool
  | [] => false
  | (_, (s, _)) :: cs => hasTypeObjectPtr s || hasTypeObjectDeps cs
termination_by l => sizeOf l
decreasing_by all_goals (simp_wf <;> omega)
end

mutual
/-- Applies a function to the type field of every node the source walker
visits and changes nothing else; used to state that the sanitizer leaves
every field other than the type declarations untouched. -/
def mapTypes (g : String → String) : JSONSchemaProps → JSONSchemaProps
  | ⟨ty, desc, fmt, req, oneOf, anyOf, allOf, props, patProps, defs, nt,
     items, addProps, addItems, deps⟩ =>
    ⟨g ty, desc, fmt, req,
     mapTypesArr g oneOf, mapTypesArr g anyOf, mapTypesArr g allOf,
     mapTypesMap g props, mapTypesMap g patProps, mapTypesMap g defs,
     mapTypesPtr g nt, mapTypesItems g items,
     mapTypesSchemaOrBool g addProps, mapTypesSchemaOrBool g addItems,
     mapTypesDeps g deps⟩
termination_by s => sizeOf s
decreasing_by all_goals (simp_wf <;> omega)

def mapTypesArr (g : String → String) : List JSONSchemaProps → List JSONSchemaProps
  | [] => []
  | c :: cs => mapTypes g c :: mapTypesArr g cs
termination_by l => sizeOf l
decreasing_by all_goals (simp_wf <;> omega)

def mapTypesMap (g : String → String) :
    List (String × JSONSchemaProps) → List (String × JSONSchemaProps)
  | [] => []
  | (k, v) :: cs => (k, mapTypes g v) :: mapTypesMap g cs
termination_by l => sizeOf l
decreasing_by all_goals (simp_wf <;> omega)

def mapTypesPtr (g : String → String) : Option JSONSchemaProps → Option JSONSchemaProps
  | none => none
  | some s => some (mapTypes g s)
termination_by o => sizeOf o
decreasing_by all_goals (simp_wf <;> omega)

def mapTypesItems (g : String → String) :
    Option (Option JSONSchemaProps × List JSONSchemaProps) →
      Option (Option JSONSchemaProps × List JSONSchemaProps)
  | none => none
  | some (s, arr) => some (mapTypesPtr g s, mapTypesArr g arr)
termination_by o => sizeOf o
decreasing_by all_goals (simp_wf <;> omega)

def mapTypesSchemaOrBool (g : String → String) :
    Option (Bool × Option JSONSchemaProps) → Option (Bool × Option JSONSchemaProps)
  | none => none
  | some (b, s) => some (b, mapTypesPtr g s)
termination_by o => sizeOf o
decreasing_by all_goals (simp_wf <;> omega)

def mapTypesDeps (g : String → String) :
    List (String × (Option JSONSchemaProps × List String)) →
      List (String × (Option JSONSchemaProps × List String))
  | [] => []
  | (k, (s, props)) :: cs => (k, (mapTypesPtr g s, props)) :: mapTypesDeps g cs
termination_by l => sizeOf l
decreasing_by all_goals (simp_wf <;> omega)
end

/-- The type rewrite the sanitizer performs at each node (lines 51-53). -/
def cleanTypeField (t : String) : String :=
  if t = "object" then "" else t

/-- CustomResourceValidation: the validation section of a CRD spec. -/
structure CustomResourceValidation where
  openAPIV3Schema : Option JSONSchemaProps

/-- The part of CustomResourceDefinitionSpec the sanitizer touches, plus a
representative untouched field. -/
structure CustomResourceDefinitionSpec where
  group : String
  validation : Option CustomResourceValidation

structure CustomResourceDefinition where
  spec : CustomResourceDefinitionSpec

/-- The error message returned when no root schema exists (line 34). -/
def noSchemaErrMsg : String :=
  "Could not remove type:object fields from CRD schema as no spec.validation.openAPIV3Schema exists"

/-- The root schema of a CRD, via the two nil guards of line 33. -/
def crdRootSchema (crd : CustomResourceDefinition) : Option JSONSchemaProps :=
  match crd.spec.validation with
  | none => none
  | some v => v.openAPIV3Schema

/-- Embeds RemoveTypeObjectFieldsFromCRDSchema (lines 29-38). The Go
function mutates the CRD in place and returns an error; here the updated
CRD is returned together with the error. -/
def RemoveTypeObjectFieldsFromCRDSchema (crd : CustomResourceDefinition) :
    CustomResourceDefinition × Option String :=
  match crd.spec.validation with
  | none => (crd, some noSchemaErrMsg)
  | some v =>
    match v.openAPIV3Schema with
    | none => (crd, some noSchemaErrMsg)
    | some s =>
      ({ crd with
          spec := { crd.spec with
            validation := some ⟨some (removeTypeObjectField s)⟩ } },
       none)

/-- The exact platform rejection phrase matched at line 43. -/
def typeObjectProblemMsg : String :=
  "must only have \"properties\", \"required\" or \"description\" at the root if the status subresource is enabled"

/-- Embeds strings.Contains over the character list: some suffix of s
starts with sub. -/
def stringContains (s sub : String) : Bool :=
  (List.range (s.data.length + 1)).any fun i => sub.data.isPrefixOf (s.data.drop i)

/-- Embeds IsTypeObjectProblemInCRDSchemas (lines 42-44); an absent error
is the nil error. -/
def IsTypeObjectProblemInCRDSchemas : Option String → Bool
  | none => false
  | some msg => stringContains msg typeObjectProblemMsg

/-! ### Helm value trees and mergeValues -/

/-- A Go interface value as it appears in a helm value tree: either a
nested string-keyed map or a scalar. -/
inductive Value where
  | vmap (entries : List (String × Value))
  | vstr (s : String)
  | vnum (n : Int)
  | vbool (b : Bool)

/-- A Go map from string to interface, as an association list with unique
keys. -/
abbrev ValueMap := List (String × Value)

/-- Go map lookup. -/
def lookupV : ValueMap → String → Option Value
  | [], _ => none
  | (k, v) :: rest, key => if k = key then some v else lookupV rest key

/-- Go map assignment to a key that is already present. -/
def setV : ValueMap → String → Value → ValueMap
  | [], _, _ => []
  | (k, v) :: rest, key, nv =>
    if k = key then (k, nv) :: rest else (k, v) :: setV rest key nv

/-- The key set of a value map. -/
def vkeys (m : ValueMap) : List String := m.map (·.1)

mutual
/-- Embeds mergeValues (reconciler.go lines 341-364): iterate the input
entries, updating base by one step each. -/
def mergeValues : ValueMap → ValueMap → ValueMap
  | base, [] => base
  | base, (key, value) :: rest => mergeValues (mergeStep base key value) rest
termination_by _ input => sizeOf input
decreasing_by all_goals (simp_wf <;> omega)

/-- The body of the range loop (lines 346-362): a key absent from base is
added; a key present in both recurses only when both values are maps and
is otherwise left at the base value. -/
def mergeStep (base : ValueMap) (key : String) (value : Value) : ValueMap :=
  match lookupV base key, value with
  | none, _ => base ++ [(key, value)]
  | some (Value.vmap baseKeyAsMap), Value.vmap inputAsMap =>
    setV base key (Value.vmap (mergeValues baseKeyAsMap inputAsMap))
  | some _, _ => base
termination_by sizeOf value
decreasing_by all_goals (simp_wf <;> omega)
end

/-! ### Template loading and resolution -/

/-- The failure modes of getSMCPTemplate (lines 366-388). -/
inductive GetTemplateErr where
  | invalidName
  | load (msg : String)
deriving DecidableEq

/-- The failure modes of recursivelyApplyTemplates (lines 391-418):
either the cycle guard fired or template loading failed. -/
inductive TemplateErr where
  | cyclicDependency
  | get (e : GetTemplateErr)
deriving DecidableEq

/-- The part of v1.ControlPlaneSpec that template resolution touches. -/
structure ControlPlaneSpec where
  template : String
  istio : ValueMap
  threeScale : ValueMap

/-- The template store: file lookup in the user and default template
directories followed by YAML parsing, collapsed into one boundary
function from template name to parsed spec or load error. -/
abbrev TemplateEnv := String → ControlPlaneSpec × Option GetTemplateErr

/-- Embeds getSMCPTemplate (lines 366-388): a name containing a slash is
rejected, otherwise the template store is consulted. -/
def getSMCPTemplate (env : TemplateEnv) (name : String) :
    ControlPlaneSpec × Option GetTemplateErr :=
  if name.data.contains '/' then (⟨"", [], []⟩, some .invalidName) else env name

/-- Set insertion on the visited set (sets.String.Insert). -/
def insertStr (l : List String) (s : String) : List String :=
  if s ∈ l then l else l ++ [s]

/-- Embeds recursivelyApplyTemplates (lines 391-418) with explicit fuel;
none means the recursion did not finish within the fuel bound. The
visited set is threaded exactly as the shared Go map is mutated: it is
passed unchanged into the recursive call and the current template name is
inserted only after that call returns. -/
def recursivelyApplyTemplates (fuel : Nat) (env : TemplateEnv)
    (smcp : ControlPlaneSpec) (visited : List String) :
    Option (ControlPlaneSpec × Option TemplateErr × List String) :=
  match fuel with
  | 0 => none
  | fuel + 1 =>
    if smcp.template = "" then some (smcp, none, visited)
    else if smcp.template ∈ visited then
      some (smcp, some .cyclicDependency, visited)
    else
      match getSMCPTemplate env smcp.template with
      | (_, some e) => some (smcp, some (.get e), visited)
      | (tpl, none) =>
        match recursivelyApplyTemplates fuel env tpl visited with
        | none => none
        | some (_, some e, visited2) => some (smcp, some e, visited2)
        | some (tpl2, none, visited2) =>
          some ({ smcp with
                   istio := mergeValues smcp.istio tpl2.istio,
                   threeScale := mergeValues smcp.threeScale tpl2.threeScale },
                none, insertStr visited2 smcp.template)

/-- Modelled from the spec: v1.DefaultTemplate, the well-known default
template identifier; the constant is defined outside this excerpt. -/
def DefaultTemplate : String := "default"

/-- The failure modes of applyTemplates (lines 473-504). -/
inductive ApplyTemplatesErr where
  | tpl (e : TemplateErr)
  | disconnected (msg : String)
deriving DecidableEq

/-- The boundary operation applyDisconnectedSettings (lines 420-430):
per-version image substitution plus the oauth-proxy lookup, collapsed
into one function from spec to updated spec or error. -/
abbrev DisconnectedSettings := ControlPlaneSpec → ControlPlaneSpec × Option String

/-- Embeds HelmValues.GetString for a dotted field path: traverses nested
maps and returns the string at the end, or the empty string when the path
is missing or not a string. -/
def getStringV : ValueMap → List String → String
  | _, [] => ""
  | m, [k] =>
    match lookupV m k with
    | some (Value.vstr s) => s
    | _ => ""
  | m, k :: rest =>
    match lookupV m k with
    | some (Value.vmap m2) => getStringV m2 rest
    | _ => ""

/-- Embeds applyTemplates (lines 473-504): default the template name when
empty, decide up front from the unresolved istio values whether
disconnected-install substitution should run, resolve the template chain,
then run substitution on the resolved spec when the decision was yes. -/
def applyTemplates (fuel : Nat) (disc : DisconnectedSettings) (env : TemplateEnv)
    (smcpSpec : ControlPlaneSpec) : Option (ControlPlaneSpec × Option ApplyTemplatesErr) :=
  let spec0 :=
    if smcpSpec.template = "" then { smcpSpec with template := DefaultTemplate }
    else smcpSpec
  let applyDisconnectedSettings :=
    if getStringV spec0.istio ["global", "tag"] ≠ "" then false
    else if getStringV spec0.istio ["global", "hub"] ≠ "" then false
    else true
  match recursivelyApplyTemplates fuel env spec0 [] with
  | none => none
  | some (spec, err, _) =>
    if applyDisconnectedSettings then
      some ((disc spec).1, (disc spec).2.map ApplyTemplatesErr.disconnected)
    else
      some (spec, err.map ApplyTemplatesErr.tpl)

/-! ### Install ordering -/

/-- Embeds orderedCharts (reconciler.go lines 49-58). -/
def orderedCharts : List (List String) :=
  [["istio"],
   ["istio/charts/security"],
   ["istio/charts/prometheus"],
   ["istio/charts/tracing"],
   ["istio/charts/galley"],
   ["istio/charts/mixer", "istio/charts/pilot", "istio/charts/gateways",
    "istio/charts/sidecarInjectorWebhook"],
   ["istio/charts/grafana"],
   ["istio/charts/kiali"]]

/-- Embeds strings.HasPrefix over the character list. -/
def strHasPrefix (pre s : String) : Bool :=
  pre.data.isPrefixOf s.data

/-- One step of the first loop of getChartsInInstallationOrder (lines
704-715): filter a predefined chart set to the charts present in the
renderings, append the group when non-empty, and mark its charts seen. -/
def orderedStep (renderings : List String)
    (acc : List (List String) × List String) (chartSet : List String) :
    List (List String) × List String :=
  let chartsToDeploy := chartSet.filter fun chart => renderings.contains chart
  (if chartsToDeploy.isEmpty then acc.1 else acc.1 ++ [chartsToDeploy],
   acc.2 ++ chartsToDeploy)

/-- One step of the second loop (lines 718-723): an unseen rendered chart
with the istio/ prefix becomes its own singleton group. -/
def istioStep (acc : List (List String) × List String) (chart : String) :
    List (List String) × List String :=
  if strHasPrefix "istio/" chart && !(acc.2.contains chart) then
    (acc.1 ++ [[chart]], acc.2 ++ [chart])
  else acc

/-- One step of the third loop (lines 726-730): every still-unseen
rendered chart becomes its own singleton group. -/
def remainingStep (seen : List String) (acc : List (List String))
    (chart : String) : List (List String) :=
  if !(seen.contains chart) then acc ++ [[chart]] else acc

/-- Embeds getChartsInInstallationOrder (lines 699-732). The renderings
map is given by its key list; the list order stands for the unspecified
Go map iteration order. -/
def getChartsInInstallationOrder (renderings : List String) : List (List String) :=
  let step1 := orderedCharts.foldl (orderedStep renderings) ([], [])
  let step2 := renderings.foldl istioStep step1
  renderings.foldl (remainingStep step2.2) step2.1

/-- The install order as the spec describes it (spec section 4.2.4):
each predefined group filtered to the rendered charts with empty groups
skipped, then the remaining rendered istio/ charts as singleton groups,
then all still-remaining rendered charts as singleton groups. Stated
from the words of the spec for comparison with the source embedding. -/
def chartsOrderSpec (renderings : List String) : List (List String) :=
  let predefined := orderedCharts.map fun g => g.filter fun c => renderings.contains c
  let seen := predefined.flatten
  predefined.filter (fun g => !g.isEmpty)
    ++ (renderings.filter fun c => strHasPrefix "istio/" c && !(seen.contains c)).map (fun c => [c])
    ++ (renderings.filter fun c => !(strHasPrefix "istio/" c) && !(seen.contains c)).map (fun c => [c])

/-- Embeds componentFromChartName (lines 734-737): path.Split returns
the part after the final slash. -/
def componentFromChartName (chartName : String) : String :=
  ⟨(chartName.data.reverse.takeWhile (fun c => c != '/')).reverse⟩

/-- The example renderings of spec property 6. -/
def exampleRenderings : List String :=
  ["istio", "istio/charts/kiali", "istio/charts/pilot", "istio/charts/mixer",
   "maistra-threescale/charts/foo"]

/-! ### Reconcile state machine model

Boundary operations (cluster client calls, chart rendering, readiness
probes, bootstrap installers) are supplied by an RWorld oracle; per-call
results are indexed by call count or by argument where a call can happen
more than once per invocation. -/

inductive CondStatus where
  | statusTrue
  | statusFalse
  | statusUnknown
deriving DecidableEq

/-- Status condition reasons used by Reconcile. Reasons carried over from
the entry state that the model does not interpret use other. -/
inductive CReason where
  | reconcileError
  | probeError
  | pausingInstall
  | pausingUpdate
  | installSuccessful
  | updateSuccessful
  | other (s : String)
deriving DecidableEq

/-- A Go error value: the rendered message together with the original
cause (errors.Cause after unwrapping errors.Wrap). -/
structure GoErr where
  full : String
  cause : String
deriving DecidableEq

def newErr (s : String) : GoErr := ⟨s, s⟩

/-- errors.Wrap: prefix the message, keep the cause. -/
def wrapErr (msg : String) (e : GoErr) : GoErr :=
  ⟨msg ++ ": " ++ e.full, e.cause⟩

/-- The reconciler session state plus the instance fields Reconcile
reads: cached renderings (none is the nil map), the wait set, the
generation counters, the reconciled-version strings and the Reconciled
condition of the working status. -/
structure RState where
  renderings : Option (List String)
  waitForComponents : List String
  instanceObservedGeneration : Int
  instanceGeneration : Int
  statusObservedGeneration : Int
  reconciledVersion : String
  meshGeneration : String
  reconciledConditionStatus : CondStatus
  reconciledConditionReason : CReason
  reconciledConditionMessage : String
  cniEnabled : Bool
deriving DecidableEq

/-- Results of the boundary calls Reconcile makes, one field per call
site; calculateComponentReadiness is indexed by call count within the
invocation and processComponentManifests by chart name. -/
structure RWorld where
  parseVersion : Option GoErr
  renderCharts : Except GoErr (List String)
  nsGet : Except GoErr (List (String × String))
  nsUpdate : Option GoErr
  installCRDs : Option GoErr
  installCNI : Option GoErr
  cniReady : Bool
  reconcileRBAC : Option GoErr
  calcReadiness : Nat → Except GoErr (List String)
  processManifests : String → Except GoErr Bool
  prune : Option GoErr
  updateReadinessStatus : Option GoErr
  postStatus : Option GoErr
  currentReconciledVersion : String
  memberOfKey : String
  namespaceName : String

/-- Embeds isUpdating (lines 335-337). -/
def isUpdating (st : RState) : Bool :=
  st.instanceObservedGeneration != 0

def insertSorted (s : String) : List String → List String
  | [] => [s]
  | x :: xs => if s ≤ x then s :: x :: xs else x :: insertSorted s xs

/-- sets.String.List returns the members sorted. -/
def sortStrings : List String → List String
  | [] => []
  | x :: xs => insertSorted x (sortStrings xs)

/-- Embeds pauseReconciliation (lines 318-333): reason PausingUpdate when
updating, PausingInstall otherwise, message listing the pending
components, nil error. -/
def pauseReconciliation (st : RState) : CReason × String :=
  ((if isUpdating st then CReason.pausingUpdate else CReason.pausingInstall),
   "Paused until the following components become ready: " ++
     String.intercalate ", " (sortStrings st.waitForComponents))

/-- The namespace label normalization of lines 148-177: fetch the mesh
namespace, add the ignore-namespace and member-of labels when missing,
and update the namespace when anything changed; the resulting error (from
either the get or the update) drives the error branch at line 171. -/
def namespaceLabelsOutcome (w : RWorld) : Option GoErr :=
  match w.nsGet with
  | .error e => some e
  | .ok labels =>
    let upd1 := labels.lookup "maistra.io/ignore-namespace" ≠ some "ignore"
    let upd2 := labels.lookup w.memberOfKey ≠ some w.namespaceName
    if upd1 ∨ upd2 then w.nsUpdate else none

/-- The outcome of the body of Reconcile before the deferred handlers
run: final session state, reconciliationReason, reconciliationMessage,
the error being returned, and the arguments of the
updateControlPlaneConditions calls made so far, in order. -/
structure BodyRes where
  state : RState
  reason : CReason
  message : String
  err : Option GoErr
  condUpdates : List (Option GoErr)
deriving DecidableEq

/-- Result of the chart loop within one group (lines 257-269). -/
inductive ChartsRes where
  | ok (st : RState)
  | fail (st : RState) (reason : CReason) (msg : String) (err : Option GoErr)
deriving DecidableEq

/-- The per-chart loop of lines 257-269: apply each chart of the group
and collect components reporting readiness into the wait set; a manifest
processing error aborts with ReconcileError. -/
def processCharts (w : RWorld) : RState → List String → ChartsRes
  | st, [] => .ok st
  | st, chart :: rest =>
    let component := componentFromChartName chart
    match w.processManifests chart with
    | .error e =>
      .fail st .reconcileError
        ("Error processing component " ++ component ++ ": " ++ e.full) (some e)
    | .ok hasReadiness =>
      processCharts w
        (if hasReadiness then
          { st with waitForComponents := insertStr st.waitForComponents component }
         else st)
        rest

/-- Result of the group loop: either the loop finished or some group
returned out of Reconcile. -/
inductive LoopRes where
  | done (st : RState) (idx : Nat)
  | stop (st : RState) (idx : Nat) (reason : CReason) (msg : String) (err : Option GoErr)
deriving DecidableEq

/-- The chart group loop of lines 255-284: per group, reset the wait set,
apply the charts, and when the wait set is non-empty recompute readiness;
a readiness error or a still non-empty wait set ends the invocation with
the Paused outcome. idx counts calculateComponentReadiness calls. -/
def installGroups (w : RWorld) : RState → Nat → List (List String) → LoopRes
  | st, idx, [] => .done st idx
  | st, idx, group :: rest =>
    match processCharts w { st with waitForComponents := [] } group with
    | .fail st2 r m e => .stop st2 idx r m e
    | .ok st2 =>
      if st2.waitForComponents.isEmpty then installGroups w st2 idx rest
      else
        match w.calcReadiness idx with
        | .error _ =>
          let p := pauseReconciliation st2
          .stop st2 (idx + 1) p.1 p.2 none
        | .ok ready =>
          let st3 := { st2 with
            waitForComponents :=
              st2.waitForComponents.filter fun c => !(ready.contains c) }
          if st3.waitForComponents.isEmpty then installGroups w st3 (idx + 1) rest
          else
            let p := pauseReconciliation st3
            .stop st3 (idx + 1) p.1 p.2 none

/-- Lines 289-315: prune obsolete resources, then record success: set
ObservedGeneration and ReconciledVersion and recompute the control-plane
conditions with a nil error. -/
def finishPhase (w : RWorld) (st : RState) : BodyRes :=
  match w.prune with
  | some e =>
    ⟨st, .reconcileError, "Error pruning obsolete resources",
     some (wrapErr "Error pruning obsolete resources" e), []⟩
  | none =>
    let rm :=
      if isUpdating st then
        (CReason.updateSuccessful,
         "Successfully updated from version " ++ st.reconciledVersion ++
           " to version " ++ st.meshGeneration)
      else
        (CReason.installSuccessful,
         "Successfully installed version " ++ st.meshGeneration)
    ⟨{ st with
        statusObservedGeneration := st.instanceGeneration,
        reconciledVersion := st.meshGeneration },
     rm.1, rm.2, none, [none]⟩

/-- The install loop followed by the completion phase. -/
def installPhase (w : RWorld) (st : RState) (idx : Nat) : BodyRes :=
  match installGroups w st idx (getChartsInInstallationOrder (st.renderings.getD [])) with
  | .done st2 _ => finishPhase w st2
  | .stop st2 _ r m e => ⟨st2, r, m, e, []⟩

/-- RBAC reconciliation (lines 227-232) followed by the install loop. -/
def rbacAndInstall (w : RWorld) (st : RState) : BodyRes :=
  match w.reconcileRBAC with
  | some e => ⟨st, .reconcileError, "Failed to install/update Maistra RBAC resources", some e, []⟩
  | none => installPhase w st 0

/-- The rendering branch of Reconcile (lines 114-232): parse the version,
render the charts, normalize the namespace labels, install CRDs, install
CNI when enabled and require it ready, reconcile RBAC. The
per-component status initialization of lines 180-196 touches only the
component status list, which this model does not track. -/
def renderingPhase (w : RWorld) (st : RState) (entryReason : CReason)
    (entryMsg : String) : BodyRes :=
  match w.parseVersion with
  | some e => ⟨st, entryReason, entryMsg, some e, []⟩
  | none =>
    match w.renderCharts with
    | .error e =>
      ⟨st, .reconcileError, "Error rendering helm charts",
       some (wrapErr "Error rendering helm charts" e), []⟩
    | .ok charts =>
      let st := { st with renderings := some charts }
      match namespaceLabelsOutcome w with
      | some e =>
        ⟨st, .reconcileError, "Error updating labels on mesh namespace",
         some (wrapErr "Error updating labels on mesh namespace" e), []⟩
      | none =>
        let st := { st with meshGeneration := w.currentReconciledVersion }
        match w.installCRDs with
        | some e => ⟨st, .reconcileError, "Failed to install/update Istio CRDs", some e, []⟩
        | none =>
          if st.cniEnabled then
            let st := { st with waitForComponents := ["cni"] }
            match w.installCNI with
            | some e => ⟨st, .reconcileError, "Failed to install/update Istio CNI", some e, []⟩
            | none =>
              if !w.cniReady then
                ⟨st, .pausingInstall, "Paused until cni becomes ready", none, []⟩
              else rbacAndInstall w st
          else rbacAndInstall w st

/-- The body of Reconcile after the early status-initialization return:
the rendering branch when no renderings are cached, otherwise the
resume branch of lines 234-252 followed by the install loop. -/
def reconcileBody (w : RWorld) (st : RState) (entryReason : CReason)
    (entryMsg : String) : BodyRes :=
  match st.renderings with
  | none => renderingPhase w st entryReason entryMsg
  | some _ =>
    if st.waitForComponents.isEmpty then installPhase w st 0
    else
      match w.calcReadiness 0 with
      | .error e =>
        ⟨st, .probeError, "Error checking component readiness",
         some (wrapErr "Error checking component readiness" e), []⟩
      | .ok ready =>
        let st2 := { st with
          waitForComponents := st.waitForComponents.filter fun c => !(ready.contains c) }
        if st2.waitForComponents.isEmpty then installPhase w st2 1
        else
          let p := pauseReconciliation st2
          ⟨st2, p.1, p.2, none, []⟩

/-- The observable outcome of one Reconcile invocation: final state,
final Reconciled condition reason and message, the error produced by the
body, the error returned to the caller, the arguments of every
updateControlPlaneConditions call, and whether the invocation took the
early status-initialization return of lines 89-93. -/
structure ROutcome where
  state : RState
  reason : CReason
  message : String
  bodyErr : Option GoErr
  err : Option GoErr
  condUpdates : List (Option GoErr)
  early : Bool
deriving DecidableEq

/-- Embeds Reconcile (lines 86-316) including its deferred handlers. The
deferred error handler of lines 116-121 is registered only when the
renderings were nil at entry, and runs before the deferred
postReconciliationStatus of lines 100-112, which sets the Reconciled
condition from the outcome (lines 613-637) unless updateReadinessStatus
fails, and whose own error never overrides a body error. The early
branch of lines 89-93 initializes conditions and posts status; the model
tracks only its early return and the status-post error. -/
def Reconcile (w : RWorld) (st : RState) : ROutcome :=
  if st.reconciledConditionStatus ≠ CondStatus.statusFalse then
    { state := st, reason := st.reconciledConditionReason,
      message := st.reconciledConditionMessage, bodyErr := none,
      err := w.postStatus, condUpdates := [], early := true }
  else
    let b := reconcileBody w st st.reconciledConditionReason st.reconciledConditionMessage
    let reset := st.renderings.isNone && b.err.isSome
    let st2 := if reset then { b.state with waitForComponents := [] } else b.state
    let trace2 := if reset then b.condUpdates ++ [b.err] else b.condUpdates
    match w.updateReadinessStatus with
    | some statusErr =>
      { state := st2, reason := b.reason, message := b.message, bodyErr := b.err,
        err := if b.err.isSome then b.err else some statusErr,
        condUpdates := trace2, early := false }
    | none =>
      let st3 := { st2 with
        reconciledConditionReason := b.reason,
        reconciledConditionMessage :=
          match b.err with
          | none => b.message
          | some e => b.message ++ ": error: " ++ e.cause }
      match w.postStatus with
      | some statusErr =>
        { state := st3, reason := b.reason, message := b.message, bodyErr := b.err,
          err := if b.err.isSome then b.err else some statusErr,
          condUpdates := trace2, early := false }
      | none =>
        { state := st3, reason := b.reason, message := b.message, bodyErr := b.err,
          err := b.err, condUpdates := trace2, early := false }

/-! ### PostStatus -/

/-- Cluster client error classification used by PostStatus. -/
inductive ClientErr where
  | notFound
  | gone
  | other (msg : String)
deriving DecidableEq

/-- apierrors.IsNotFound or apierrors.IsGone. -/
def isNotFoundOrGone : ClientErr → Bool
  | .notFound => true
  | .gone => true
  | .other _ => false

/-- The two cluster calls PostStatus can make: the instance re-fetch and
the status-subresource patch. -/
structure StatusClient where
  get : Except ClientErr Unit
  patch : Option ClientErr

/-- Embeds PostStatus (lines 593-611) over an arbitrary status type with
structural equality standing for reflect.DeepEqual. Returns the error
result together with the number of status patch attempts made. -/
def PostStatus {σ : Type} [DecidableEq σ] (workingStatus instanceStatus : σ)
    (w : StatusClient) : Option String × Nat :=
  if workingStatus = instanceStatus then (none, 0)
  else
    match w.get with
    | .ok _ =>
      match w.patch with
      | none => (none, 1)
      | some e =>
        if isNotFoundOrGone e then (none, 1)
        else (some "error updating ServiceMeshControlPlane status", 1)
    | .error e =>
      if isNotFoundOrGone e then (none, 0)
      else (some "error getting ServiceMeshControlPlane prior to updating status", 0)

/-! ### Concrete instances used by witnesses and counterexamples -/

/-- A leaf schema declaring type object. -/
def exampleInnerSchema : JSONSchemaProps :=
  ⟨"object", "leaf", "", [], [], [], [], [], [], [], none, none, none, none, []⟩

/-- A schema with type object at the root and in a property map, a oneOf
branch, a not sub-schema, both array-item forms, an
additionalProperties sub-schema and a dependency sub-schema. -/
def exampleSchema : JSONSchemaProps :=
  ⟨"object", "root", "int32", ["a"],
   [exampleInnerSchema], [], [],
   [("p", exampleInnerSchema)], [], [],
   some exampleInnerSchema,
   some (some exampleInnerSchema, [exampleInnerSchema]),
   some (true, some exampleInnerSchema), none,
   [("d", (some exampleInnerSchema, ["x"]))]⟩

def exampleCRD : CustomResourceDefinition :=
  ⟨⟨"maistra.io", some ⟨some exampleSchema⟩⟩⟩

def exampleCRDNoSchema : CustomResourceDefinition :=
  ⟨⟨"maistra.io", none⟩⟩

/-- The base map of spec property 4. -/
def exampleBase : ValueMap :=
  [("a", .vnum 1), ("b", .vmap [("x", .vnum 1)])]

/-- The input map of spec property 4. -/
def exampleInput : ValueMap :=
  [("b", .vmap [("x", .vnum 2), ("y", .vnum 2)]), ("c", .vnum 3)]

/-- The merge result of spec property 4. -/
def exampleMerged : ValueMap :=
  [("a", .vnum 1), ("b", .vmap [("x", .vnum 1), ("y", .vnum 2)]), ("c", .vnum 3)]

/-- Template A references B. -/
def cycTemplateA : ControlPlaneSpec := ⟨"B", [], []⟩

/-- Template B references A. -/
def cycTemplateB : ControlPlaneSpec := ⟨"A", [], []⟩

/-- A template store holding the cyclic pair A and B. -/
def cycEnv : TemplateEnv := fun name =>
  if name = "A" then (cycTemplateA, none)
  else if name = "B" then (cycTemplateB, none)
  else (⟨"", [], []⟩, some (.load "template not found"))

/-- A spec naming template A. -/
def cycSpec : ControlPlaneSpec := ⟨"A", [], []⟩

/-- An empty template store. -/
def emptyEnv : TemplateEnv := fun _ => (⟨"", [], []⟩, some (.load "template not found"))

/-- A spec naming no template and carrying no values. -/
def emptySpec : ControlPlaneSpec := ⟨"", [], []⟩

/-- A template pinning global.tag in its istio values. -/
def c5Template : ControlPlaneSpec :=
  ⟨"", [("global", .vmap [("tag", .vstr "1.1.0")])], []⟩

/-- A template store holding c5Template under the name prod. -/
def c5Env : TemplateEnv := fun name =>
  if name = "prod" then (c5Template, none)
  else (⟨"", [], []⟩, some (.load "template not found"))

/-- A spec naming template prod, itself pinning neither tag nor hub. -/
def c5Spec : ControlPlaneSpec := ⟨"prod", [], []⟩

/-- A disconnected-settings strategy that changes nothing. -/
def discNoop : DisconnectedSettings := fun s => (s, none)

/-- A disconnected-settings strategy that writes the oauth-proxy image
field, as updateOauthProxyConfig does when the lookup succeeds. -/
def discSetImage : DisconnectedSettings := fun s =>
  ({ s with istio := (mergeValues s.istio
      [("global", .vmap [("oauthproxy", .vmap [("image", .vstr "registry.example/oauth-proxy")])])]) },
   none)

/-- A world in which every boundary call succeeds. -/
def okWorld : RWorld :=
  { parseVersion := none,
    renderCharts := .ok ["istio"],
    nsGet := .ok [("maistra.io/ignore-namespace", "ignore"), ("maistra.io/member-of", "mesh")],
    nsUpdate := none,
    installCRDs := none,
    installCNI := none,
    cniReady := true,
    reconcileRBAC := none,
    calcReadiness := fun _ => .ok ["istio"],
    processManifests := fun _ => .ok false,
    prune := none,
    updateReadinessStatus := none,
    postStatus := none,
    currentReconciledVersion := "1-1",
    memberOfKey := "maistra.io/member-of",
    namespaceName := "mesh" }

/-- A session at the start of a first install, Reconciled condition
false, no cached renderings. -/
def baseState : RState :=
  { renderings := none,
    waitForComponents := [],
    instanceObservedGeneration := 0,
    instanceGeneration := 1,
    statusObservedGeneration := 0,
    reconciledVersion := "",
    meshGeneration := "",
    reconciledConditionStatus := .statusFalse,
    reconciledConditionReason := .other "ResourceCreated",
    reconciledConditionMessage := "Installing mesh generation 1",
    cniEnabled := false }

/-- A resumed session: renderings cached, empty wait set. -/
def c3State : RState := { baseState with renderings := some ["istio"] }

/-- A world in which the istio chart reports readiness and every
readiness inspection fails. -/
def c3World : RWorld :=
  { okWorld with
    processManifests := fun _ => .ok true,
    calcReadiness := fun _ => .error (newErr "connection refused") }

/-- A resumed session waiting on the cni component. -/
def c7State : RState :=
  { baseState with renderings := some ["istio"], waitForComponents := ["cni"] }

/-- A status client whose instance re-fetch fails with an unexpected
error. -/
def c9Client : StatusClient := ⟨.error (.other "internal server error"), none⟩

/-- A world in which version parsing fails. -/
def badVersionWorld : RWorld :=
  { okWorld with parseVersion := some (newErr "invalid version") }

/-- A status client whose re-fetch succeeds and whose patch fails with
not-found. -/
def c9ClientGone : StatusClient := ⟨.ok (), some .notFound⟩

/-! ### Theorems: CRD schema sanitizer -/

mutual
theorem removeTypeObjectField_eq_mapTypes (s : JSONSchemaProps) :
    removeTypeObjectField s = mapTypes cleanTypeField s := by
  match s with
  | ⟨ty, desc, fmt, req, oneOf, anyOf, allOf, props, patProps, defs, nt,
     items, addProps, addItems, deps⟩ =>
    rw [removeTypeObjectField.eq_def, mapTypes.eq_def]
    dsimp only
    rw [removeTypeObjectFieldFromArray_eq oneOf, removeTypeObjectFieldFromArray_eq anyOf,
        removeTypeObjectFieldFromArray_eq allOf, removeTypeObjectFieldFromMap_eq props,
        removeTypeObjectFieldFromMap_eq patProps, removeTypeObjectFieldFromMap_eq defs,
        removeTypeObjectFieldFromPtr_eq nt, removeTypeObjectFieldFromItems_eq items,
        removeTypeObjectFieldFromSchemaOrBool_eq addProps,
        removeTypeObjectFieldFromSchemaOrBool_eq addItems,
        removeTypeObjectFieldFromDeps_eq deps]
    rfl
termination_by sizeOf s
decreasing_by all_goals (simp_wf <;> omega)

theorem removeTypeObjectFieldFromArray_eq (l : List JSONSchemaProps) :
    removeTypeObjectFieldFromArray l = mapTypesArr cleanTypeField l := by
  match l with
  | [] => simp only [removeTypeObjectFieldFromArray, mapTypesArr]
  | c :: cs =>
    simp only [removeTypeObjectFieldFromArray, mapTypesArr]
    rw [removeTypeObjectField_eq_mapTypes c, removeTypeObjectFieldFromArray_eq cs]
termination_by sizeOf l
decreasing_by all_goals (simp_wf <;> omega)

theorem removeTypeObjectFieldFromMap_eq (l : List (String × JSONSchemaProps)) :
    removeTypeObjectFieldFromMap l = mapTypesMap cleanTypeField l := by
  match l with
  | [] => simp only [removeTypeObjectFieldFromMap, mapTypesMap]
  | (k, v) :: cs =>
    simp only [removeTypeObjectFieldFromMap, mapTypesMap]
    rw [removeTypeObjectField_eq_mapTypes v, removeTypeObjectFieldFromMap_eq cs]
termination_by sizeOf l
decreasing_by all_goals (simp_wf <;> omega)

theorem removeTypeObjectFieldFromPtr_eq (o : Option JSONSchemaProps) :
    removeTypeObjectFieldFromPtr o = mapTypesPtr cleanTypeField o := by
  match o with
  | none => simp only [removeTypeObjectFieldFromPtr, mapTypesPtr]
  | some s =>
    simp only [removeTypeObjectFieldFromPtr, mapTypesPtr]
    rw [removeTypeObjectField_eq_mapTypes s]
termination_by sizeOf o
decreasing_by all_goals (simp_wf <;> omega)

theorem removeTypeObjectFieldFromItems_eq
    (o : Option (Option JSONSchemaProps × List JSONSchemaProps)) :
    removeTypeObjectFieldFromItems o = mapTypesItems cleanTypeField o := by
  match o with
  | none => simp only [removeTypeObjectFieldFromItems, mapTypesItems]
  | some (s, arr) =>
    simp only [removeTypeObjectFieldFromItems, mapTypesItems]
    rw [removeTypeObjectFieldFromPtr_eq s, removeTypeObjectFieldFromArray_eq arr]
termination_by sizeOf o
decreasing_by all_goals (simp_wf <;> omega)

theorem removeTypeObjectFieldFromSchemaOrBool_eq
    (o : Option (Bool × Option JSONSchemaProps)) :
    removeTypeObjectFieldFromSchemaOrBool o = mapTypesSchemaOrBool cleanTypeField o := by
  match o with
  | none => simp only [removeTypeObjectFieldFromSchemaOrBool, mapTypesSchemaOrBool]
  | some (b, s) =>
    simp only [removeTypeObjectFieldFromSchemaOrBool, mapTypesSchemaOrBool]
    rw [removeTypeObjectFieldFromPtr_eq s]
termination_by sizeOf o
decreasing_by all_goals (simp_wf <;> omega)

theorem removeTypeObjectFieldFromDeps_eq
    (l : List (String × (Option JSONSchemaProps × List String))) :
    removeTypeObjectFieldFromDeps l = mapTypesDeps cleanTypeField l := by
  match l with
  | [] => simp only [removeTypeObjectFieldFromDeps, mapTypesDeps]
  | (k, (s, props)) :: cs =>
    simp only [removeTypeObjectFieldFromDeps, mapTypesDeps]
    rw [removeTypeObjectFieldFromPtr_eq s, removeTypeObjectFieldFromDeps_eq cs]
termination_by sizeOf l
decreasing_by all_goals (simp_wf <;> omega)
end

mutual
theorem hasTypeObject_remove (s : JSONSchemaProps) :
    hasTypeObject (removeTypeObjectField s) = false := by
  match s with
  | ⟨ty, desc, fmt, req, oneOf, anyOf, allOf, props, patProps, defs, nt,
     items, addProps, addItems, deps⟩ =>
    rw [removeTypeObjectField.eq_def]
    dsimp only
    rw [hasTypeObject.eq_def]
    dsimp only
    rw [hasTypeObjectArr_remove oneOf, hasTypeObjectArr_remove anyOf,
        hasTypeObjectArr_remove allOf, hasTypeObjectMap_remove props,
        hasTypeObjectMap_remove patProps, hasTypeObjectMap_remove defs,
        hasTypeObjectPtr_remove nt, hasTypeObjectItems_remove items,
        hasTypeObjectSchemaOrBool_remove addProps,
        hasTypeObjectSchemaOrBool_remove addItems, hasTypeObjectDeps_remove deps]
    simp only [Bool.or_false]
    split <;> simp_all
termination_by sizeOf s
decreasing_by all_goals (simp_wf <;> omega)

theorem hasTypeObjectArr_remove (l : List JSONSchemaProps) :
    hasTypeObjectArr (removeTypeObjectFieldFromArray l) = false := by
  match l with
  | [] => simp only [removeTypeObjectFieldFromArray, hasTypeObjectArr]
  | c :: cs =>
    simp only [removeTypeObjectFieldFromArray, hasTypeObjectArr]
    rw [hasTypeObject_remove c, hasTypeObjectArr_remove cs]
    simp
termination_by sizeOf l
decreasing_by all_goals (simp_wf <;> omega)

theorem hasTypeObjectMap_remove (l : List (String × JSONSchemaProps)) :
    hasTypeObjectMap (removeTypeObjectFieldFromMap l) = false := by
  match l with
  | [] => simp only [removeTypeObjectFieldFromMap, hasTypeObjectMap]
  | (k, v) :: cs =>
    simp only [removeTypeObjectFieldFromMap, hasTypeObjectMap]
    rw [hasTypeObject_remove v, hasTypeObjectMap_remove cs]
    simp
termination_by sizeOf l
decreasing_by all_goals (simp_wf <;> omega)

theorem hasTypeObjectPtr_remove (o : Option JSONSchemaProps) :
    hasTypeObjectPtr (removeTypeObjectFieldFromPtr o) = false := by
  match o with
  | none => simp only [removeTypeObjectFieldFromPtr, hasTypeObjectPtr]
  | some s =>
    simp only [removeTypeObjectFieldFromPtr, hasTypeObjectPtr]
    exact hasTypeObject_remove s
termination_by sizeOf o
decreasing_by all_goals (simp_wf <;> omega)

theorem hasTypeObjectItems_remove
    (o : Option (Option JSONSchemaProps × List JSONSchemaProps)) :
    hasTypeObjectItems (removeTypeObjectFieldFromItems o) = false := by
  match o with
  | none => simp only [removeTypeObjectFieldFromItems, hasTypeObjectItems]
  | some (s, arr) =>
    simp only [removeTypeObjectFieldFromItems, hasTypeObjectItems]
    rw [hasTypeObjectPtr_remove s, hasTypeObjectArr_remove arr]
    simp
termination_by sizeOf o
decreasing_by all_goals (simp_wf <;> omega)

theorem hasTypeObjectSchemaOrBool_remove
    (o : Option (Bool × Option JSONSchemaProps)) :
    hasTypeObjectSchemaOrBool (removeTypeObjectFieldFromSchemaOrBool o) = false := by
  match o with
  | none => simp only [removeTypeObjectFieldFromSchemaOrBool, hasTypeObjectSchemaOrBool]
  | some (b, s) =>
    simp only [removeTypeObjectFieldFromSchemaOrBool, hasTypeObjectSchemaOrBool]
    exact hasTypeObjectPtr_remove s
termination_by sizeOf o
decreasing_by all_goals (simp_wf <;> omega)

theorem hasTypeObjectDeps_remove
    (l : List (String × (Option JSONSchemaProps × List String))) :
    hasTypeObjectDeps (removeTypeObjectFieldFromDeps l) = false := by
  match l with
  | [] => simp only [removeTypeObjectFieldFromDeps, hasTypeObjectDeps]
  | (k, (s, props)) :: cs =>
    simp only [removeTypeObjectFieldFromDeps, hasTypeObjectDeps]
    rw [hasTypeObjectPtr_remove s, hasTypeObjectDeps_remove cs]
    simp
termination_by sizeOf l
decreasing_by all_goals (simp_wf <;> omega)
end

/-- C1: for every CRD whose validation schema is present at the root, the
sanitizer succeeds, replaces the root schema by its sanitized form, the
sanitized tree has no node of type object in any sub-schema position,
and the tree is otherwise unchanged: the result is exactly the original
with the type rewrite applied to every node and nothing else. -/
theorem crd_sanitizer_removes_all_object_types
    (crd : CustomResourceDefinition) (s : JSONSchemaProps)
    (h : crdRootSchema crd = some s) :
    (RemoveTypeObjectFieldsFromCRDSchema crd).2 = none ∧
    crdRootSchema (RemoveTypeObjectFieldsFromCRDSchema crd).1 =
      some (removeTypeObjectField s) ∧
    hasTypeObject (removeTypeObjectField s) = false ∧
    removeTypeObjectField s = mapTypes cleanTypeField s := by
  obtain ⟨⟨grp, val⟩⟩ := crd
  match val with
  | none => simp [crdRootSchema] at h
  | some ⟨os⟩ =>
    match os with
    | none => simp [crdRootSchema] at h
    | some s0 =>
      simp only [crdRootSchema, Option.some.injEq] at h
      subst h
      exact ⟨rfl, rfl, hasTypeObject_remove s0, removeTypeObjectField_eq_mapTypes s0⟩

/-- Witness for C1 at a concrete CRD carrying object declarations in
every sub-schema position. -/
theorem crd_sanitizer_removes_all_object_types_witness :
    crdRootSchema exampleCRD = some exampleSchema ∧
    ((RemoveTypeObjectFieldsFromCRDSchema exampleCRD).2 = none ∧
     crdRootSchema (RemoveTypeObjectFieldsFromCRDSchema exampleCRD).1 =
       some (removeTypeObjectField exampleSchema) ∧
     hasTypeObject (removeTypeObjectField exampleSchema) = false ∧
     removeTypeObjectField exampleSchema = mapTypes cleanTypeField exampleSchema) :=
  ⟨rfl, crd_sanitizer_removes_all_object_types exampleCRD exampleSchema rfl⟩

/-- C8: sanitizing a CRD with no root validation schema fails with the
invalid-input error and returns the CRD unchanged, and the rejection
predicate is true exactly for a present error whose message contains the
platform rejection phrase. -/
theorem crd_sanitizer_missing_schema_and_rejection_predicate :
    (∀ crd : CustomResourceDefinition, crdRootSchema crd = none →
      RemoveTypeObjectFieldsFromCRDSchema crd = (crd, some noSchemaErrMsg)) ∧
    (∀ e : Option String, IsTypeObjectProblemInCRDSchemas e = true ↔
      ∃ msg, e = some msg ∧ stringContains msg typeObjectProblemMsg = true) := by
  constructor
  · intro crd h
    obtain ⟨⟨grp, val⟩⟩ := crd
    match val with
    | none => rfl
    | some ⟨os⟩ =>
      match os with
      | none => rfl
      | some s0 => simp [crdRootSchema] at h
  · intro e
    match e with
    | none => simp [IsTypeObjectProblemInCRDSchemas]
    | some msg => simp [IsTypeObjectProblemInCRDSchemas]

/-- Witness for C8: the no-validation CRD is returned unchanged with the
invalid-input error, and the predicate instantiated at the absent error
together with sample evaluations at a matching and a non-matching
message. -/
theorem crd_sanitizer_missing_schema_and_rejection_predicate_witness :
    RemoveTypeObjectFieldsFromCRDSchema exampleCRDNoSchema =
      (exampleCRDNoSchema, some noSchemaErrMsg) ∧
    (IsTypeObjectProblemInCRDSchemas none = true ↔
      ∃ msg, (none : Option String) = some msg ∧
        stringContains msg typeObjectProblemMsg = true) ∧
    IsTypeObjectProblemInCRDSchemas (some typeObjectProblemMsg) = true ∧
    IsTypeObjectProblemInCRDSchemas (some "connection refused") = false :=
  ⟨crd_sanitizer_missing_schema_and_rejection_predicate.1 exampleCRDNoSchema rfl,
   crd_sanitizer_missing_schema_and_rejection_predicate.2 none,
   by decide, by decide⟩

/-! ### Theorems: mergeValues -/

theorem lookupV_eq_none_of_not_mem (m : ValueMap) (key : String)
    (h : key ∉ vkeys m) : lookupV m key = none := by
  induction m with
  | nil => rfl
  | cons head rest ih =>
    obtain ⟨k, v⟩ := head
    simp only [vkeys, List.map_cons, List.mem_cons, not_or] at h
    simp only [lookupV]
    rw [if_neg (fun hk : k = key => h.1 hk.symm)]
    exact ih (by simpa [vkeys] using h.2)

theorem lookupV_append_of_none (m l : ValueMap) (key : String)
    (h : lookupV m key = none) : lookupV (m ++ l) key = lookupV l key := by
  induction m with
  | nil => rfl
  | cons head rest ih =>
    obtain ⟨k, v⟩ := head
    simp only [lookupV] at h ⊢
    by_cases hk : k = key
    · simp [hk] at h
    · simp only [if_neg hk] at h ⊢
      exact ih h

theorem lookupV_append_singleton_ne (m : ValueMap) (k : String) (v : Value)
    (key : String) (h : key ≠ k) : lookupV (m ++ [(k, v)]) key = lookupV m key := by
  induction m with
  | nil =>
    simp only [List.nil_append, lookupV]
    rw [if_neg (fun hk : k = key => h hk.symm)]
  | cons head rest ih =>
    obtain ⟨k2, v2⟩ := head
    simp only [List.cons_append, lookupV]
    by_cases hk : k2 = key
    · simp [hk]
    · simp only [if_neg hk]
      exact ih

theorem lookupV_setV_self (m : ValueMap) (key : String) (nv : Value)
    (x : Value) (h : lookupV m key = some x) :
    lookupV (setV m key nv) key = some nv := by
  induction m with
  | nil => simp [lookupV] at h
  | cons head rest ih =>
    obtain ⟨k, v⟩ := head
    simp only [lookupV, setV] at h ⊢
    by_cases hk : k = key
    · simp [hk, lookupV]
    · simp only [if_neg hk] at h ⊢
      simp only [lookupV, if_neg hk]
      exact ih h

theorem lookupV_setV_ne (m : ValueMap) (k0 : String) (nv : Value)
    (key : String) (h : key ≠ k0) :
    lookupV (setV m k0 nv) key = lookupV m key := by
  induction m with
  | nil => rfl
  | cons head rest ih =>
    obtain ⟨k, v⟩ := head
    simp only [setV]
    by_cases hk : k = k0
    · subst hk
      simp only [lookupV]
      rw [if_neg (fun hx : k = key => h hx.symm),
          if_neg (fun hx : k = key => h hx.symm)]
    · simp only [if_neg hk, lookupV]
      by_cases hky : k = key
      · simp [hky]
      · simp only [if_neg hky]
        exact ih

theorem lookupV_mergeValues (input : ValueMap) :
    ∀ (base : ValueMap) (key : String), (vkeys input).Nodup →
    lookupV (mergeValues base input) key =
      match lookupV base key, lookupV input key with
      | none, iv => iv
      | some bv, none => some bv
      | some (Value.vmap bm), some (Value.vmap im) =>
        some (Value.vmap (mergeValues bm im))
      | some bv, some _ => some bv := by
  induction input with
  | nil =>
    intro base key _
    simp only [mergeValues, lookupV]
    cases lookupV base key with
    | none => rfl
    | some bv => cases bv <;> rfl
  | cons head rest ih =>
    obtain ⟨k, v⟩ := head
    intro base key h
    have hnodup : (k :: vkeys rest).Nodup := by simpa [vkeys] using h
    have hk : k ∉ vkeys rest := (List.nodup_cons.mp hnodup).1
    have hrest : (vkeys rest).Nodup := (List.nodup_cons.mp hnodup).2
    simp only [mergeValues]
    rw [ih (mergeStep base k v) key hrest]
    by_cases hkey : key = k
    · subst hkey
      have hhead : lookupV ((key, v) :: rest) key = some v := by
        simp [lookupV]
      rw [lookupV_eq_none_of_not_mem rest key hk, hhead]
      cases hb : lookupV base key with
      | none =>
        have hstep : lookupV (mergeStep base key v) key = some v := by
          rw [mergeStep.eq_def, hb]
          rw [lookupV_append_of_none base _ key hb]
          simp [lookupV]
        rw [hstep]
        cases v <;> rfl
      | some bv =>
        cases bv with
        | vmap bm =>
          cases v with
          | vmap im =>
            have hstep : lookupV (mergeStep base key (Value.vmap im)) key =
                some (Value.vmap (mergeValues bm im)) := by
              rw [mergeStep.eq_def, hb]
              exact lookupV_setV_self base key _ _ hb
            rw [hstep]
          | vstr s =>
            have hstep : mergeStep base key (Value.vstr s) = base := by
              rw [mergeStep.eq_def, hb]
            rw [hstep, hb]
          | vnum n =>
            have hstep : mergeStep base key (Value.vnum n) = base := by
              rw [mergeStep.eq_def, hb]
            rw [hstep, hb]
          | vbool b =>
            have hstep : mergeStep base key (Value.vbool b) = base := by
              rw [mergeStep.eq_def, hb]
            rw [hstep, hb]
        | vstr s0 =>
          have hstep : mergeStep base key v = base := by
            rw [mergeStep.eq_def, hb]
          rw [hstep, hb]
        | vnum n0 =>
          have hstep : mergeStep base key v = base := by
            rw [mergeStep.eq_def, hb]
          rw [hstep, hb]
        | vbool b0 =>
          have hstep : mergeStep base key v = base := by
            rw [mergeStep.eq_def, hb]
          rw [hstep, hb]
    · have hhead : lookupV ((k, v) :: rest) key = lookupV rest key := by
        simp only [lookupV]
        rw [if_neg (fun hx : k = key => hkey hx.symm)]
      rw [hhead]
      have hbase : lookupV (mergeStep base k v) key = lookupV base key := by
        rw [mergeStep.eq_def]
        cases hb : lookupV base k with
        | none => exact lookupV_append_singleton_ne base k v key hkey
        | some bv =>
          cases bv with
          | vmap bm =>
            cases v with
            | vmap im => exact lookupV_setV_ne base k _ key hkey
            | vstr s => rfl
            | vnum n => rfl
            | vbool b => rfl
          | vstr s => cases v <;> rfl
          | vnum n => cases v <;> rfl
          | vbool b => cases v <;> rfl
      rw [hbase]

/-- C4: mergeValues copies keys of input absent from base, recurses only
when both values are maps, and otherwise keeps the base value unchanged
regardless of type, so the base wins every conflict at every depth; in
particular the merge of the spec example maps gives the spec example
result. -/
theorem mergeValues_base_wins :
    (∀ (base input : ValueMap) (key : String), (vkeys input).Nodup →
      lookupV (mergeValues base input) key =
        match lookupV base key, lookupV input key with
        | none, iv => iv
        | some bv, none => some bv
        | some (Value.vmap bm), some (Value.vmap im) =>
          some (Value.vmap (mergeValues bm im))
        | some bv, some _ => some bv) ∧
    mergeValues exampleBase exampleInput = exampleMerged := by
  constructor
  · intro base input key h
    exact lookupV_mergeValues input base key h
  · simp [exampleBase, exampleInput, exampleMerged, mergeValues,
      mergeStep.eq_def, lookupV, setV]

/-- Witness for C4: the characterization applied at the spec example maps
and the key b, with the no-duplicate-keys hypothesis discharged by
computation. -/
theorem mergeValues_base_wins_witness :
    lookupV (mergeValues exampleBase exampleInput) "b" =
      match lookupV exampleBase "b", lookupV exampleInput "b" with
      | none, iv => iv
      | some bv, none => some bv
      | some (Value.vmap bm), some (Value.vmap im) =>
        some (Value.vmap (mergeValues bm im))
      | some bv, some _ => some bv :=
  mergeValues_base_wins.1 exampleBase exampleInput "b"
    (by simp [exampleInput, vkeys])

/-! ### Theorems: template resolution -/

theorem recApply_cycle_diverges (fuel : Nat) :
    ∀ smcp : ControlPlaneSpec, smcp.template = "A" ∨ smcp.template = "B" →
    recursivelyApplyTemplates fuel cycEnv smcp [] = none := by
  induction fuel with
  | zero => intro smcp _; rfl
  | succ fuel ih =>
    intro smcp h
    have hA : recursivelyApplyTemplates fuel cycEnv cycTemplateA [] = none :=
      ih _ (Or.inr rfl)
    have hB : recursivelyApplyTemplates fuel cycEnv cycTemplateB [] = none :=
      ih _ (Or.inl rfl)
    have hgetA : getSMCPTemplate cycEnv "A" = (cycTemplateA, none) := rfl
    have hgetB : getSMCPTemplate cycEnv "B" = (cycTemplateB, none) := rfl
    cases h with
    | inl hT =>
      simp only [recursivelyApplyTemplates, hT, hgetA, hA]
      simp
    | inr hT =>
      simp only [recursivelyApplyTemplates, hT, hgetB, hB]
      simp

theorem recApply_no_cycle_err (fuel : Nat) :
    ∀ (env : TemplateEnv) (smcp : ControlPlaneSpec)
      (r : ControlPlaneSpec × Option TemplateErr × List String),
    recursivelyApplyTemplates fuel env smcp [] = some r →
    r.2.1 ≠ some TemplateErr.cyclicDependency := by
  induction fuel with
  | zero =>
    intro env smcp r h
    exact absurd h (by simp [recursivelyApplyTemplates])
  | succ fuel ih =>
    intro env smcp r h
    simp only [recursivelyApplyTemplates] at h
    by_cases h1 : smcp.template = ""
    · rw [if_pos h1] at h
      cases h
      simp
    · rw [if_neg h1, if_neg (List.not_mem_nil smcp.template)] at h
      rcases hg : getSMCPTemplate env smcp.template with ⟨tpl, ge⟩
      rw [hg] at h
      cases ge with
      | some e =>
        cases h
        simp
      | none =>
        dsimp only at h
        cases hrec : recursivelyApplyTemplates fuel env tpl [] with
        | none =>
          rw [hrec] at h
          exact absurd h (by simp)
        | some rr =>
          rw [hrec] at h
          obtain ⟨tpl2, e2, visited2⟩ := rr
          cases e2 with
          | none =>
            dsimp only at h
            cases h
            simp
          | some e =>
            dsimp only at h
            cases h
            have := ih env tpl (tpl2, some e, visited2) hrec
            simpa using this

/-- C2: the claim that a cyclic template chain fails with a cycle error
is refuted by the code: the visited set is only extended after the
recursive call returns, so on the chain A to B to A every cycle check
sees an empty set and the resolution never terminates (for every fuel
bound it runs out of fuel), and more generally no resolution started
with an empty visited set can ever return the cyclic-dependency error. -/
theorem template_cycle_diverges :
    (∀ fuel : Nat, recursivelyApplyTemplates fuel cycEnv cycSpec [] = none) ∧
    (∀ (fuel : Nat) (env : TemplateEnv) (smcp : ControlPlaneSpec)
       (r : ControlPlaneSpec × Option TemplateErr × List String),
       recursivelyApplyTemplates fuel env smcp [] = some r →
       r.2.1 ≠ some TemplateErr.cyclicDependency) :=
  ⟨fun fuel => recApply_cycle_diverges fuel cycSpec (Or.inl rfl),
   fun fuel env smcp r h => recApply_no_cycle_err fuel env smcp r h⟩

/-- Witness for C2: the cyclic chain exhausts a concrete fuel bound, and
the no-cycle-error statement applied to a concrete completed resolution. -/
theorem template_cycle_diverges_witness :
    recursivelyApplyTemplates 5 cycEnv cycSpec [] = none ∧
    ((emptySpec, (none : Option TemplateErr), ([] : List String)).2.1 ≠
      some TemplateErr.cyclicDependency) :=
  ⟨template_cycle_diverges.1 5,
   template_cycle_diverges.2 1 emptyEnv emptySpec (emptySpec, none, []) rfl⟩

theorem c5_resolution_eval :
    recursivelyApplyTemplates 3 c5Env ⟨"prod", [], []⟩ [] =
      some (⟨"prod", [("global", .vmap [("tag", .vstr "1.1.0")])], []⟩, none, ["prod"]) := by
  have hget : getSMCPTemplate c5Env "prod" = (c5Template, none) := rfl
  have hinner : recursivelyApplyTemplates 2 c5Env c5Template [] =
      some (c5Template, none, []) := rfl
  have hmerge : mergeValues ([] : ValueMap)
      [("global", Value.vmap [("tag", Value.vstr "1.1.0")])] =
      [("global", Value.vmap [("tag", Value.vstr "1.1.0")])] := by
    simp only [mergeValues]
    rw [mergeStep.eq_def]
    rfl
  simp [recursivelyApplyTemplates, hget, hinner, c5Template, hmerge,
    mergeValues, insertStr]

/-- C5 counterexample: the skip decision is taken from the values of the
spec before template resolution, not from the resolved values. For the
concrete spec naming template prod, the resolved values pin global.tag,
yet the disconnected-settings strategy still runs: a strategy writing
the oauth-proxy image field changes the final image field, refuting the
claim that for every spec whose resolved values pin an explicit
global.tag the substitution is skipped entirely and image fields are
left as rendered. -/
theorem applyTemplates_skip_counterexample :
    (∃ spec : ControlPlaneSpec,
       applyTemplates 3 discNoop c5Env c5Spec = some (spec, none) ∧
       getStringV spec.istio ["global", "tag"] = "1.1.0") ∧
    ((applyTemplates 3 discSetImage c5Env c5Spec).map fun r =>
       getStringV r.1.istio ["global", "oauthproxy", "image"]) =
      some "registry.example/oauth-proxy" := by
  have himg : discSetImage ⟨"prod", [("global", .vmap [("tag", .vstr "1.1.0")])], []⟩ =
      (⟨"prod", [("global", .vmap [("tag", .vstr "1.1.0"),
        ("oauthproxy", .vmap [("image", .vstr "registry.example/oauth-proxy")])])], []⟩,
       none) := by
    simp only [discSetImage]
    rw [show (mergeValues [("global", Value.vmap [("tag", Value.vstr "1.1.0")])]
      [("global", Value.vmap [("oauthproxy",
        Value.vmap [("image", Value.vstr "registry.example/oauth-proxy")])])]) =
      mergeValues (mergeStep [("global", Value.vmap [("tag", Value.vstr "1.1.0")])]
        "global" (Value.vmap [("oauthproxy",
          Value.vmap [("image", Value.vstr "registry.example/oauth-proxy")])])) []
      from by simp only [mergeValues]]
    rw [mergeStep.eq_def]
    have hrec : mergeValues [("tag", Value.vstr "1.1.0")]
        [("oauthproxy", Value.vmap [("image", Value.vstr "registry.example/oauth-proxy")])] =
        [("tag", Value.vstr "1.1.0"),
         ("oauthproxy", Value.vmap [("image", Value.vstr "registry.example/oauth-proxy")])] := by
      simp only [mergeValues]
      rw [mergeStep.eq_def]
      rfl
    simp [lookupV, setV, hrec, mergeValues]
  constructor
  · refine ⟨⟨"prod", [("global", .vmap [("tag", .vstr "1.1.0")])], []⟩, ?_, rfl⟩
    simp [applyTemplates, c5Spec, c5_resolution_eval, discNoop, getStringV, lookupV]
  · simp [applyTemplates, c5Spec, c5_resolution_eval, himg, getStringV, lookupV]

/-- C5 amended: the skip decision is computed from the values of the
spec as given, before template resolution. When those values pin an
explicit global.tag, or pin an explicit global.hub, substitution is
skipped entirely: the result does not depend on the strategy and equals
the bare resolution result. When the spec pins neither and names no
template, the template defaults to the well-known identifier and
substitution runs after resolution completes, on the fully merged
values. -/
theorem applyTemplates_skip_decision :
    (∀ (fuel : Nat) (env : TemplateEnv) (spec : ControlPlaneSpec)
       (d1 d2 : DisconnectedSettings),
       getStringV spec.istio ["global", "tag"] ≠ "" ∨
         getStringV spec.istio ["global", "hub"] ≠ "" →
       applyTemplates fuel d1 env spec = applyTemplates fuel d2 env spec ∧
       applyTemplates fuel d1 env spec =
         (recursivelyApplyTemplates fuel env
           (if spec.template = "" then { spec with template := DefaultTemplate } else spec)
           []).map (fun r => (r.1, r.2.1.map ApplyTemplatesErr.tpl))) ∧
    (∀ (fuel : Nat) (env : TemplateEnv) (spec : ControlPlaneSpec)
       (d : DisconnectedSettings),
       spec.template = "" →
       getStringV spec.istio ["global", "tag"] = "" →
       getStringV spec.istio ["global", "hub"] = "" →
       applyTemplates fuel d env spec =
         (recursivelyApplyTemplates fuel env { spec with template := DefaultTemplate }
           []).map (fun r => ((d r.1).1, (d r.1).2.map ApplyTemplatesErr.disconnected))) := by
  constructor
  · intro fuel env spec d1 d2 h
    have hist : (if spec.template = "" then { spec with template := DefaultTemplate }
        else spec).istio = spec.istio := by
      split <;> rfl
    have hcond : ¬ (getStringV (if spec.template = "" then
        { spec with template := DefaultTemplate } else spec).istio ["global", "tag"] = "" ∧
        getStringV (if spec.template = "" then
        { spec with template := DefaultTemplate } else spec).istio ["global", "hub"] = "") := by
      rw [hist]
      rcases h with h | h
      · exact fun hc => h hc.1
      · exact fun hc => h hc.2
    simp only [applyTemplates]
    cases hr : recursivelyApplyTemplates fuel env
        (if spec.template = "" then { spec with template := DefaultTemplate } else spec) [] with
    | none => simp
    | some rr =>
      obtain ⟨s, e, vis⟩ := rr
      simp [if_neg hcond]
  · intro fuel env spec d htpl htag hhub
    have hist : (if spec.template = "" then { spec with template := DefaultTemplate }
        else spec) = { spec with template := DefaultTemplate } := by
      rw [if_pos htpl]
    simp only [applyTemplates, hist]
    have hcond : getStringV ({ spec with template := DefaultTemplate } : ControlPlaneSpec).istio
        ["global", "tag"] = "" ∧
        getStringV ({ spec with template := DefaultTemplate } : ControlPlaneSpec).istio
        ["global", "hub"] = "" := ⟨htag, hhub⟩
    cases hr : recursivelyApplyTemplates fuel env { spec with template := DefaultTemplate } [] with
    | none => simp
    | some rr =>
      obtain ⟨s, e, vis⟩ := rr
      simp [if_pos hcond]

/-- Witness for C5 amended: the skip branch applied to a spec pinning
global.tag in its own values, and the run branch applied to a spec with
no template name and no pinned tag or hub. -/
theorem applyTemplates_skip_decision_witness :
    (applyTemplates 1 discNoop emptyEnv c5Template =
       applyTemplates 1 discSetImage emptyEnv c5Template ∧
     applyTemplates 1 discNoop emptyEnv c5Template =
       (recursivelyApplyTemplates 1 emptyEnv
         (if c5Template.template = "" then { c5Template with template := DefaultTemplate }
          else c5Template) []).map (fun r => (r.1, r.2.1.map ApplyTemplatesErr.tpl))) ∧
    applyTemplates 1 discNoop emptyEnv emptySpec =
      (recursivelyApplyTemplates 1 emptyEnv { emptySpec with template := DefaultTemplate }
        []).map (fun r =>
          ((discNoop r.1).1, (discNoop r.1).2.map ApplyTemplatesErr.disconnected)) :=
  ⟨applyTemplates_skip_decision.1 1 emptyEnv c5Template discNoop discSetImage
     (Or.inl (by decide)),
   applyTemplates_skip_decision.2 1 emptyEnv emptySpec discNoop rfl rfl rfl⟩

/-! ### Theorems: install ordering -/

theorem charts_contains_append (a b : List String) (x : String) :
    (a ++ b).contains x = (a.contains x || b.contains x) := by
  simp [List.elem_eq_mem, List.mem_append]

theorem charts_contains_append_singleton (seen : List String) (c x : String)
    (h : x ≠ c) : (seen ++ [c]).contains x = seen.contains x := by
  simp [List.elem_eq_mem, List.mem_append, h]

theorem charts_contains_filter (r : List String) (p : String → Bool) (x : String)
    (hx : x ∈ r) : (r.filter p).contains x = p x := by
  cases hp : p x <;> simp [List.elem_eq_mem, List.mem_filter, hx, hp]

theorem charts_flatten_map_filter (p : String → Bool) (l : List (List String)) :
    (l.map fun g => g.filter p).flatten = l.flatten.filter p := by
  induction l with
  | nil => rfl
  | cons g rest ih =>
    rw [List.map_cons, List.flatten_cons, ih, List.flatten_cons, List.filter_append]

theorem charts_flatten_filter_nonempty (l : List (List String)) :
    (l.filter fun g => !g.isEmpty).flatten = l.flatten := by
  induction l with
  | nil => rfl
  | cons g rest ih =>
    rw [List.filter_cons, List.flatten_cons]
    by_cases hg : g.isEmpty
    · have hnil : g = [] := List.isEmpty_iff.mp hg
      subst hnil
      simpa using ih
    · have hg2 : (!g.isEmpty) = true := by simp [hg]
      rw [if_pos hg2, List.flatten_cons, ih]

theorem charts_flatten_map_singleton (l : List String) :
    (l.map fun c => [c]).flatten = l := by
  induction l with
  | nil => rfl
  | cons c rest ih =>
    rw [List.map_cons, List.flatten_cons, ih, List.singleton_append]

theorem charts_foldl_ordered (r : List String) (l : List (List String)) :
    ∀ (cs : List (List String)) (seen : List String),
    List.foldl (orderedStep r) (cs, seen) l =
      (cs ++ ((l.map fun g => g.filter fun c => r.contains c).filter fun g => !g.isEmpty),
       seen ++ (l.map fun g => g.filter fun c => r.contains c).flatten) := by
  induction l with
  | nil => intro cs seen; simp
  | cons g rest ih =>
    intro cs seen
    rw [List.foldl_cons]
    dsimp only [orderedStep]
    rw [ih]
    by_cases hg : (g.filter fun c => r.contains c).isEmpty = true
    · have hnil : (g.filter fun c => r.contains c) = [] := List.isEmpty_iff.mp hg
      rw [if_pos hg, List.map_cons, hnil]
      simp [List.filter_cons, List.flatten_cons]
    · have hg2 : (!(g.filter fun c => r.contains c).isEmpty) = true := by
        cases he : (g.filter fun c => r.contains c).isEmpty with
        | false => rfl
        | true => exact absurd he hg
      have hne : (g.filter fun c => r.contains c) ≠ [] := fun hne => hg (by rw [hne]; rfl)
      have hex : ∃ x ∈ g, x ∈ r := by
        obtain ⟨x, hx⟩ := List.exists_mem_of_ne_nil _ hne
        have hm := List.mem_filter.mp hx
        exact ⟨x, hm.1, by simpa [List.elem_eq_mem] using hm.2⟩
      rw [if_neg hg, List.map_cons]
      simp [List.filter_cons, List.flatten_cons, hg2, List.append_assoc, hex]

theorem charts_foldl_istio (l : List String) :
    ∀ (cs : List (List String)) (seen : List String), l.Nodup →
    List.foldl istioStep (cs, seen) l =
      (cs ++ ((l.filter fun c => strHasPrefix "istio/" c && !(seen.contains c)).map fun c => [c]),
       seen ++ (l.filter fun c => strHasPrefix "istio/" c && !(seen.contains c))) := by
  induction l with
  | nil => intro cs seen _; simp
  | cons c rest ih =>
    intro cs seen h
    have hc : c ∉ rest := (List.nodup_cons.mp h).1
    have hrest : rest.Nodup := (List.nodup_cons.mp h).2
    have hcong : ∀ x ∈ rest,
        (strHasPrefix "istio/" x && !((seen ++ [c]).contains x)) =
        (strHasPrefix "istio/" x && !(seen.contains x)) := by
      intro x hx
      rw [charts_contains_append_singleton seen c x (fun he => hc (he ▸ hx))]
    rw [List.foldl_cons]
    dsimp only [istioStep]
    by_cases hcond : (strHasPrefix "istio/" c && !(seen.contains c)) = true
    · rw [if_pos hcond, ih (cs ++ [[c]]) (seen ++ [c]) hrest,
        List.filter_congr hcong, List.filter_cons, if_pos hcond]
      simp [List.append_assoc]
    · rw [if_neg hcond, ih cs seen hrest, List.filter_cons, if_neg hcond]

theorem charts_foldl_remaining (seen : List String) (l : List String) :
    ∀ cs : List (List String),
    List.foldl (remainingStep seen) cs l =
      cs ++ ((l.filter fun c => !(seen.contains c)).map fun c => [c]) := by
  induction l with
  | nil => intro cs; simp
  | cons c rest ih =>
    intro cs
    rw [List.foldl_cons]
    dsimp only [remainingStep]
    by_cases hcond : (!(seen.contains c)) = true
    · rw [if_pos hcond, ih (cs ++ [[c]]), List.filter_cons, if_pos hcond]
      simp [List.append_assoc]
    · rw [if_neg hcond, ih cs, List.filter_cons, if_neg hcond]

theorem getCharts_eq_spec (r : List String) (h : r.Nodup) :
    getChartsInInstallationOrder r = chartsOrderSpec r := by
  unfold getChartsInInstallationOrder chartsOrderSpec
  dsimp only
  rw [charts_foldl_ordered r orderedCharts [] [], charts_foldl_istio r _ _ h,
    charts_foldl_remaining _ r _]
  simp only [List.nil_append]
  have hcong : ∀ x ∈ r,
      (!((((orderedCharts.map fun g => g.filter fun c => r.contains c).flatten) ++
          (r.filter fun c => strHasPrefix "istio/" c &&
            !((orderedCharts.map fun g => g.filter fun c => r.contains c).flatten).contains c)).contains x)) =
      (!(strHasPrefix "istio/" x) &&
        !(((orderedCharts.map fun g => g.filter fun c => r.contains c).flatten).contains x)) := by
    intro x hx
    rw [charts_contains_append, charts_contains_filter r _ x hx]
    cases hs : ((orderedCharts.map fun g => g.filter fun c => r.contains c).flatten).contains x <;>
      cases hp : strHasPrefix "istio/" x <;> rfl
  rw [List.filter_congr hcong]

/-- C6: the install order is, first, each predefined chart group in the
fixed order filtered to the rendered charts with empty groups skipped,
then every remaining rendered chart with the istio/ prefix as its own
singleton group, then every still-remaining rendered chart as its own
singleton group; on the example renderings of spec property 6 this gives
the istio group, then exactly the mixer and pilot group, then kiali,
then the threescale add-on chart. -/
theorem charts_install_order :
    (∀ r : List String, r.Nodup →
      getChartsInInstallationOrder r = chartsOrderSpec r) ∧
    getChartsInInstallationOrder exampleRenderings =
      [["istio"], ["istio/charts/mixer", "istio/charts/pilot"],
       ["istio/charts/kiali"], ["maistra-threescale/charts/foo"]] :=
  ⟨fun r h => getCharts_eq_spec r h, by decide⟩

/-- Witness for C6: the general characterization applied to the example
renderings, whose key set has no duplicates by computation. -/
theorem charts_install_order_witness :
    getChartsInInstallationOrder exampleRenderings = chartsOrderSpec exampleRenderings :=
  charts_install_order.1 exampleRenderings (by decide)

/-- C10: for renderings with distinct chart identifiers, the groups
returned by getChartsInInstallationOrder form an exact partition of the
rendered charts: the concatenation of all groups is a permutation of the
rendering key list, and every chart of every group is a rendered chart. -/
theorem charts_groups_partition (r : List String) (h : r.Nodup) :
    ((getChartsInInstallationOrder r).flatten).Perm r ∧
    (∀ g ∈ getChartsInInstallationOrder r, ∀ c ∈ g, c ∈ r) := by
  have heq := getCharts_eq_spec r h
  have hflat : (chartsOrderSpec r).flatten =
      ((orderedCharts.map fun g => g.filter fun c => r.contains c).flatten ++
        (r.filter fun c => strHasPrefix "istio/" c &&
          !((orderedCharts.map fun g => g.filter fun c => r.contains c).flatten).contains c)) ++
      (r.filter fun c => !(strHasPrefix "istio/" c) &&
        !((orderedCharts.map fun g => g.filter fun c => r.contains c).flatten).contains c) := by
    unfold chartsOrderSpec
    dsimp only
    rw [List.flatten_append, List.flatten_append, charts_flatten_filter_nonempty,
      charts_flatten_map_singleton, charts_flatten_map_singleton]
  set S := (orderedCharts.map fun g => g.filter fun c => r.contains c).flatten with hSdef
  set P2 := r.filter fun c => strHasPrefix "istio/" c && !(S.contains c) with hP2def
  set P3 := r.filter fun c => !(strHasPrefix "istio/" c) && !(S.contains c) with hP3def
  have hS : S = orderedCharts.flatten.filter fun c => r.contains c :=
    charts_flatten_map_filter _ _
  have hndF : (orderedCharts.flatten).Nodup := by decide
  have hndS : S.Nodup := by rw [hS]; exact hndF.filter _
  have hndP2 : P2.Nodup := h.filter _
  have hndP3 : P3.Nodup := h.filter _
  have hd23 : P2.Disjoint P3 := by
    intro a h2 h3
    have hb2 := (List.mem_filter.mp h2).2
    have hb3 := (List.mem_filter.mp h3).2
    rw [Bool.and_eq_true] at hb2 hb3
    rw [hb2.1] at hb3
    exact absurd hb3.1 (by decide)
  have hmemS : ∀ a, a ∈ S → S.contains a = true := by
    intro a ha
    simp [List.elem_eq_mem, ha]
  have hdS : S.Disjoint (P2 ++ P3) := by
    intro a h1 hmem
    rcases List.mem_append.mp hmem with h2 | h3
    · have hb := (List.mem_filter.mp h2).2
      rw [Bool.and_eq_true] at hb
      rw [hmemS a h1] at hb
      exact absurd hb.2 (by decide)
    · have hb := (List.mem_filter.mp h3).2
      rw [Bool.and_eq_true] at hb
      rw [hmemS a h1] at hb
      exact absurd hb.2 (by decide)
  have hnd : (S ++ (P2 ++ P3)).Nodup := hndS.append (hndP2.append hndP3 hd23) hdS
  have hmem : ∀ x, x ∈ S ++ (P2 ++ P3) ↔ x ∈ r := by
    intro x
    constructor
    · intro hx
      rcases List.mem_append.mp hx with h1 | h23
      · rw [hS] at h1
        have := (List.mem_filter.mp h1).2
        simpa [List.elem_eq_mem] using this
      · rcases List.mem_append.mp h23 with h2 | h3
        · exact (List.mem_filter.mp h2).1
        · exact (List.mem_filter.mp h3).1
    · intro hx
      by_cases hxS : x ∈ S
      · exact List.mem_append.mpr (Or.inl hxS)
      · have hcont : S.contains x = false := by
          cases hc : S.contains x with
          | false => rfl
          | true => exact absurd (by simpa [List.elem_eq_mem] using hc) hxS
        refine List.mem_append.mpr (Or.inr (List.mem_append.mpr ?_))
        cases hpre : strHasPrefix "istio/" x with
        | true =>
          exact Or.inl (List.mem_filter.mpr ⟨hx, by rw [hpre, hcont]; rfl⟩)
        | false =>
          exact Or.inr (List.mem_filter.mpr ⟨hx, by rw [hpre, hcont]; rfl⟩)
  have hperm : ((getChartsInInstallationOrder r).flatten).Perm r := by
    rw [heq, hflat, List.append_assoc]
    exact (List.perm_ext_iff_of_nodup hnd h).mpr hmem
  refine ⟨hperm, ?_⟩
  intro g hg c hc
  have hcf : c ∈ (getChartsInInstallationOrder r).flatten :=
    List.mem_flatten.mpr ⟨g, hg, hc⟩
  exact hperm.mem_iff.mp hcf

/-- Witness for C10: the partition property at the example renderings. -/
theorem charts_groups_partition_witness :
    ((getChartsInInstallationOrder exampleRenderings).flatten).Perm exampleRenderings ∧
    (∀ g ∈ getChartsInInstallationOrder exampleRenderings, ∀ c ∈ g,
      c ∈ exampleRenderings) :=
  charts_groups_partition exampleRenderings (by decide)

/-! ### Theorems: the Reconcile state machine -/

theorem reconcile_projections (w : RWorld) (st : RState)
    (h : st.reconciledConditionStatus = CondStatus.statusFalse) :
    (Reconcile w st).reason =
      (reconcileBody w st st.reconciledConditionReason st.reconciledConditionMessage).reason ∧
    (Reconcile w st).bodyErr =
      (reconcileBody w st st.reconciledConditionReason st.reconciledConditionMessage).err ∧
    (Reconcile w st).state.waitForComponents =
      (if st.renderings.isNone &&
          (reconcileBody w st st.reconciledConditionReason st.reconciledConditionMessage).err.isSome
       then []
       else (reconcileBody w st st.reconciledConditionReason st.reconciledConditionMessage).state.waitForComponents) ∧
    (Reconcile w st).condUpdates =
      (if st.renderings.isNone &&
          (reconcileBody w st st.reconciledConditionReason st.reconciledConditionMessage).err.isSome
       then (reconcileBody w st st.reconciledConditionReason st.reconciledConditionMessage).condUpdates ++
         [(reconcileBody w st st.reconciledConditionReason st.reconciledConditionMessage).err]
       else (reconcileBody w st st.reconciledConditionReason st.reconciledConditionMessage).condUpdates) ∧
    ((reconcileBody w st st.reconciledConditionReason st.reconciledConditionMessage).err.isSome →
      (Reconcile w st).err =
        (reconcileBody w st st.reconciledConditionReason st.reconciledConditionMessage).err) := by
  unfold Reconcile
  rw [if_neg (by rw [h]; simp)]
  cases hu : w.updateReadinessStatus <;> cases hp : w.postStatus <;>
    cases hbe : (reconcileBody w st st.reconciledConditionReason st.reconciledConditionMessage).err <;>
      simp [hbe]
  all_goals (split <;> simp)

/-- C3 counterexample: in a resumed session with renderings cached and an
empty wait set, the istio chart is installed and reports readiness, and
the readiness inspection itself fails; the invocation nevertheless ends
with reason PausingInstall and a nil error instead of aborting with
ProbeError, so inspection failure after installing a chart group is
conflated with the not-yet-ready outcome. -/
theorem probe_error_conflation_counterexample :
    (Reconcile c3World c3State).reason = CReason.pausingInstall ∧
    (Reconcile c3World c3State).err = none ∧
    (Reconcile c3World c3State).reason ≠ CReason.probeError := by
  refine ⟨by decide, by decide, by decide⟩

/-- C3 amended: the two readiness computation sites behave differently.
When resuming with a non-empty wait set, an inspection failure aborts
the invocation as a hard error with reason ProbeError and the wrapped
cause. After installing a chart group, an inspection failure is treated
exactly like the not-yet-ready outcome: the group loop stops with the
Paused outcome of pauseReconciliation and a nil error. -/
theorem readiness_error_two_sites :
    (∀ (w : RWorld) (st : RState) (rs : List String) (e : GoErr),
      st.reconciledConditionStatus = CondStatus.statusFalse →
      st.renderings = some rs →
      st.waitForComponents ≠ [] →
      w.calcReadiness 0 = .error e →
      (Reconcile w st).reason = CReason.probeError ∧
      (Reconcile w st).err = some (wrapErr "Error checking component readiness" e) ∧
      (Reconcile w st).bodyErr = some (wrapErr "Error checking component readiness" e)) ∧
    (∀ (w : RWorld) (st st2 : RState) (idx : Nat) (group : List String)
       (rest : List (List String)) (e : GoErr),
      processCharts w { st with waitForComponents := [] } group = ChartsRes.ok st2 →
      st2.waitForComponents ≠ [] →
      w.calcReadiness idx = .error e →
      installGroups w st idx (group :: rest) =
        LoopRes.stop st2 (idx + 1) (pauseReconciliation st2).1 (pauseReconciliation st2).2 none) := by
  constructor
  · intro w st rs e hstat hrend hwait hcalc
    have hne : st.waitForComponents.isEmpty = false := by
      cases hw : st.waitForComponents.isEmpty with
      | false => rfl
      | true => exact absurd (List.isEmpty_iff.mp hw) hwait
    have hb : reconcileBody w st st.reconciledConditionReason st.reconciledConditionMessage =
        ⟨st, CReason.probeError, "Error checking component readiness",
         some (wrapErr "Error checking component readiness" e), []⟩ := by
      unfold reconcileBody
      rw [hrend]
      dsimp only
      rw [hne]
      rw [if_neg Bool.false_ne_true, hcalc]
    obtain ⟨hreason, hbodyErr, _, _, herr⟩ := reconcile_projections w st hstat
    refine ⟨?_, ?_, ?_⟩
    · rw [hreason, hb]
    · rw [herr (by rw [hb]; rfl), hb]
    · rw [hbodyErr, hb]
  · intro w st st2 idx group rest e hproc hwait hcalc
    have hne : st2.waitForComponents.isEmpty = false := by
      cases hw : st2.waitForComponents.isEmpty with
      | false => rfl
      | true => exact absurd (List.isEmpty_iff.mp hw) hwait
    unfold installGroups
    rw [hproc]
    dsimp only
    rw [hne]
    rw [if_neg Bool.false_ne_true, hcalc]

/-- Witness for C3 amended: the resume site at a session waiting on cni
with a failing inspection, and the install site at the concrete istio
group with a failing inspection. -/
theorem readiness_error_two_sites_witness :
    ((Reconcile c3World c7State).reason = CReason.probeError ∧
     (Reconcile c3World c7State).err =
       some (wrapErr "Error checking component readiness" (newErr "connection refused")) ∧
     (Reconcile c3World c7State).bodyErr =
       some (wrapErr "Error checking component readiness" (newErr "connection refused"))) ∧
    installGroups c3World c3State 0 [["istio"]] =
      LoopRes.stop { c3State with waitForComponents := ["istio"] } 1
        (pauseReconciliation { c3State with waitForComponents := ["istio"] }).1
        (pauseReconciliation { c3State with waitForComponents := ["istio"] }).2 none :=
  ⟨readiness_error_two_sites.1 c3World c7State ["istio"] (newErr "connection refused")
     rfl rfl (by decide) rfl,
   readiness_error_two_sites.2 c3World c3State
     { c3State with waitForComponents := ["istio"] } 0 ["istio"] [] (newErr "connection refused")
     (by decide) (by decide) rfl⟩

/-- C7 counterexample: an invocation that starts with renderings already
cached and a non-empty wait set hits a readiness inspection error and
exits with a non-nil error, yet the wait set is not reset (it still
holds cni) and no condition recomputation happens, because the deferred
error handler that performs the reset is registered only when the
renderings were nil at entry. -/
theorem error_with_renderings_no_reset_counterexample :
    (Reconcile c3World c7State).err ≠ none ∧
    (Reconcile c3World c7State).state.waitForComponents = ["cni"] ∧
    (Reconcile c3World c7State).condUpdates = [] := by
  refine ⟨by decide, by decide, by decide⟩

/-- C7 amended: the reset-and-recompute behaviour belongs to invocations
that begin with no cached renderings. For every such invocation whose
body produces an error, the wait set is empty on exit and the final
condition recomputation was performed with that error. Invocations that
begin with renderings already cached do not register this handler. -/
theorem rendering_invocation_error_resets (w : RWorld) (st : RState) (e : GoErr)
    (hstat : st.reconciledConditionStatus = CondStatus.statusFalse)
    (hrend : st.renderings = none)
    (hbe : (reconcileBody w st st.reconciledConditionReason st.reconciledConditionMessage).err =
      some e) :
    (Reconcile w st).bodyErr = some e ∧
    (Reconcile w st).state.waitForComponents = [] ∧
    (Reconcile w st).condUpdates =
      (reconcileBody w st st.reconciledConditionReason st.reconciledConditionMessage).condUpdates ++
        [some e] := by
  obtain ⟨_, hbodyErr, hwf, htr, _⟩ := reconcile_projections w st hstat
  have hcond : (st.renderings.isNone &&
      (reconcileBody w st st.reconciledConditionReason st.reconciledConditionMessage).err.isSome) =
      true := by
    rw [hrend, hbe]
    rfl
  refine ⟨?_, ?_, ?_⟩
  · rw [hbodyErr, hbe]
  · rw [hwf, if_pos hcond]
  · rw [htr, if_pos hcond, hbe]

/-- Witness for C7 amended: a fresh-install session with no renderings
whose version parse fails; on exit the wait set is empty and the
condition recomputation carries the error. -/
theorem rendering_invocation_error_resets_witness :
    (Reconcile badVersionWorld baseState).bodyErr = some (newErr "invalid version") ∧
    (Reconcile badVersionWorld baseState).state.waitForComponents = [] ∧
    (Reconcile badVersionWorld baseState).condUpdates =
      (reconcileBody badVersionWorld baseState baseState.reconciledConditionReason
        baseState.reconciledConditionMessage).condUpdates ++ [some (newErr "invalid version")] :=
  rendering_invocation_error_resets badVersionWorld baseState (newErr "invalid version")
    rfl rfl (by decide)

/-! ### Theorems: PostStatus -/

/-- C9 counterexample: with differing statuses and a re-fetch failing
with an unexpected error, PostStatus makes zero patch attempts and
returns an error, refuting the claim that whenever the working status
differs from the last-observed status exactly one patch attempt is
made. -/
theorem poststatus_counterexample :
    (0 : Nat) ≠ 1 ∧
    (PostStatus (0 : Nat) 1 c9Client).2 = 0 ∧
    (PostStatus (0 : Nat) 1 c9Client).1 ≠ none := by
  refine ⟨by decide, by decide, by decide⟩

/-- C9 amended: PostStatus performs zero cluster writes when the working
status deep-equals the last-observed status; otherwise it re-fetches the
instance and, when the re-fetch succeeds, makes exactly one patch
attempt; when the re-fetch fails it makes no patch attempt, and
disappearance (not-found or gone) at either the re-fetch or the patch is
treated as success. -/
theorem poststatus_write_discipline {σ : Type} [DecidableEq σ]
    (workingStatus instanceStatus : σ) (w : StatusClient) :
    (workingStatus = instanceStatus →
      PostStatus workingStatus instanceStatus w = (none, 0)) ∧
    (workingStatus ≠ instanceStatus →
      (w.get = .ok () → (PostStatus workingStatus instanceStatus w).2 = 1) ∧
      (∀ e, w.get = .error e → (PostStatus workingStatus instanceStatus w).2 = 0 ∧
        (isNotFoundOrGone e = true →
          (PostStatus workingStatus instanceStatus w).1 = none)) ∧
      (∀ e, w.get = .ok () → w.patch = some e → isNotFoundOrGone e = true →
        (PostStatus workingStatus instanceStatus w).1 = none) ∧
      (w.get = .ok () → w.patch = none →
        PostStatus workingStatus instanceStatus w = (none, 1))) := by
  constructor
  · intro heq
    unfold PostStatus
    rw [if_pos heq]
  · intro hne
    unfold PostStatus
    rw [if_neg hne]
    refine ⟨?_, ?_, ?_, ?_⟩
    · intro hget
      rw [hget]
      cases hp : w.patch with
      | none => rfl
      | some e =>
        dsimp only
        split <;> rfl
    · intro e hget
      rw [hget]
      dsimp only
      constructor
      · split <;> rfl
      · intro hgone
        rw [if_pos hgone]
    · intro e hget hpatch hgone
      rw [hget]
      dsimp only
      rw [hpatch]
      dsimp only
      rw [if_pos hgone]
    · intro hget hpatch
      rw [hget]
      dsimp only
      rw [hpatch]

/-- Witness for C9 amended: equal statuses produce no write, and a patch
failing with not-found is success. -/
theorem poststatus_write_discipline_witness :
    PostStatus (0 : Nat) 0 c9Client = (none, 0) ∧
    (PostStatus (0 : Nat) 1 c9ClientGone).1 = none :=
  ⟨(poststatus_write_discipline (0 : Nat) 0 c9Client).1 rfl,
   ((poststatus_write_discipline (0 : Nat) 1 c9ClientGone).2 (by decide)).2.2.1
     ClientErr.notFound rfl rfl rfl⟩
